import Mathlib

/-!
# CartesianTrajectory

A shallow embedding of `src/include/CartesianTrajectory.cpp`: a trajectory through two or
more poses, built from six scalar cubic splines (x, y, z, roll, pitch, yaw).

* `double` is a scalar type `α` (a field with decidable equality); the theorems about
  trigonometry instantiate it with `ℝ` through `CMath.real`.
* An access `v[i]` to a `std::vector` is checked: past the end it is `Failure.out_of_bounds`
  (undefined behaviour in C++), so "the call returns" is a statement about the model.
* The interpolation primitive (`iDynTree::CubicSpline`) and the rotation type
  (`Eigen::AngleAxisd`) are library code; the spline is a record of its fitted data together
  with an evaluator `CubicSplineEval` taken as a parameter.
* `abs` is the absolute value of a `double`, `-M_PI/2` is `(-M_PI)/2`.
* Writes to `std::cerr` are not modelled.

The definitions come first (the embedding, the real-number semantics, the closed forms and the
example data the proofs use), then the lemmas, then one theorem per claim.
-/

/-! ## Library types -/

/-- The functions and constants of `<cmath>` the source calls, over the scalar type. -/
structure CMath (α : Type) where
  abs : α → α
  asin : α → α
  atan2 : α → α → α
  sin : α → α
  cos : α → α
  M_PI : α

/-- The pose type `Eigen::Isometry3d`: a translation and a 3×3 linear part, which
`rotation()` returns. -/
structure Isometry3d (α : Type) where
  translation : Fin 3 → α
  rotation : Matrix (Fin 3) (Fin 3) α

/-- The interpolant `iDynTree::CubicSpline` as the data it was last given by `setData`; a
default-constructed spline holds no data. -/
structure CubicSpline (α : Type) where
  m_time : List α := []
  m_y : List α := []

/-- The two evaluation entry points of the interpolation primitive:
`evaluatePoint(t)` and `evaluatePoint(t, velocity, acceleration)`, the latter returning
(value, first derivative, second derivative). -/
structure CubicSplineEval (α : Type) where
  evaluatePoint : CubicSpline α → α → α
  evaluatePoint3 : CubicSpline α → α → α × α × α

/-- What a call can end in besides a result: the `std::invalid_argument` the constructor
throws, or a read or write past the end of a `std::vector` (undefined behaviour in C++). -/
inductive Failure where
  | invalid_argument (what : String)
  | out_of_bounds

/-- Modelled from the spec: the class declaration (`CartesianTrajectory.h`) is missing; the
members are the ones the source uses through `this->`: the validity flag (false until a
construction completes), the number of poses (a natural number) and the vector of
interpolants (empty until the constructor resizes it). -/
structure CartesianTrajectory (α : Type) where
  isValid : Bool := false
  numPoses : Nat
  spline : List (CubicSpline α) := []

section Defs

variable {α : Type} [Field α] [DecidableEq α]

/-- The call `CubicSpline::setData(time, yData)`: the spline now fits `yData` against `time`. -/
def CubicSpline.setData (_self : CubicSpline α) (time yData : List α) : CubicSpline α :=
  { m_time := time, m_y := yData }

/-- The axis `Eigen::Vector3d::UnitX()`. -/
def UnitX : Fin 3 → α := ![1, 0, 0]

/-- The axis `Eigen::Vector3d::UnitY()`. -/
def UnitY : Fin 3 → α := ![0, 1, 0]

/-- The axis `Eigen::Vector3d::UnitZ()`. -/
def UnitZ : Fin 3 → α := ![0, 0, 1]

/-- The rotation `Eigen::AngleAxisd(angle, axis)` as the matrix Eigen builds from it
(`AngleAxis::toRotationMatrix`). -/
def AngleAxisd (m : CMath α) (angle : α) (axis : Fin 3 → α) : Matrix (Fin 3) (Fin 3) α :=
  let s := m.sin angle
  let c := m.cos angle
  let x := axis 0
  let y := axis 1
  let z := axis 2
  !![(1 - c) * x * x + c, (1 - c) * x * y - s * z, (1 - c) * x * z + s * y;
     (1 - c) * x * y + s * z, (1 - c) * y * y + c, (1 - c) * y * z - s * x;
     (1 - c) * x * z - s * y, (1 - c) * y * z + s * x, (1 - c) * z * z + c]

/-- Checked read `v[i]` of a `std::vector`. -/
def vectorAt {β : Type} (v : List β) (i : Nat) : Except Failure β :=
  match v[i]? with
  | some x => .ok x
  | none => .error .out_of_bounds

/-- Checked write `points[j][i] = value`. -/
def writeAt (points : List (List α)) (j i : Nat) (value : α) : Except Failure (List (List α)) :=
  match points[j]? with
  | none => .error .out_of_bounds
  | some row => if i < row.length then .ok (points.set j (row.set i value)) else .error .out_of_bounds

/-- Lines 48-61 of the constructor: the Euler angles (roll, pitch, yaw) read off a rotation
matrix, with the gimbal-lock branch. -/
def eulerAngles (m : CMath α) (R : Matrix (Fin 3) (Fin 3) α) : α × α × α :=
  if m.abs (R 0 2) ≠ 1 then
    let pitch := m.asin (R 0 2)
    let roll := m.atan2 (-R 1 2) (R 2 2)
    let yaw := m.atan2 (-R 0 1) (R 0 0)
    (roll, pitch, yaw)
  else
    let pitch := -m.M_PI / 2
    let roll := m.atan2 (-R 1 0) (R 1 1)
    let yaw := 0
    (roll, pitch, yaw)

/-- Body of the loop of lines 38-66 for one index `i`: the pose's translation goes to
`points[0..2][i]`, its Euler angles to `points[3..5][i]`. -/
def extractPose (m : CMath α) (poses : List (Isometry3d α)) (points : List (List α)) (i : Nat) :
    Except Failure (List (List α)) := do
  let pose ← vectorAt poses i
  let translation := pose.translation
  let points ← (List.finRange 3).foldlM (fun pts j => writeAt pts j.val i (translation j)) points
  let R := pose.rotation
  let rpy := eulerAngles m R
  let points ← writeAt points 3 i rpy.1
  let points ← writeAt points 4 i rpy.2.1
  writeAt points 5 i rpy.2.2

/-- Body of the loop of lines 70-74: `spline[i].setData(times, points[i])`. -/
def fitChannel (times : List α) (points : List (List α)) (spline : List (CubicSpline α)) (i : Nat) :
    Except Failure (List (CubicSpline α)) := do
  let s ← vectorAt spline i
  let p ← vectorAt points i
  pure (spline.set i (s.setData times p))

/-- The constructor `CartesianTrajectory::CartesianTrajectory(poses, times)`. -/
def CartesianTrajectory.construct (m : CMath α) (poses : List (Isometry3d α)) (times : List α) :
    Except Failure (CartesianTrajectory α) :=
  let numPoses := poses.length
  let message := "[ERROR] [CARTESIAN TRAJECTORY] Constructor: "
  if poses.length ≠ times.length then
    .error (.invalid_argument (message ++ "Pose vector had " ++ toString poses.length
      ++ " elements, and the " ++ "time vector had " ++ toString times.length ++ " elements."))
  else if poses.length < 2 then
    .error (.invalid_argument (message ++ "A minimum of 2 poses is needed to create a trajectory."))
  else do
    let points : List (List α) := List.replicate 6 (List.replicate numPoses 0)
    let points ← (List.range numPoses).foldlM (extractPose m poses) points
    let spline : List (CubicSpline α) := List.replicate 6 {}
    let spline ← (List.range 6).foldlM (fitChannel times points) spline
    pure { isValid := true, numPoses := numPoses, spline := spline }

/-- The expression of lines 106-109 and 140-143:
`Translation3d(pos) * AngleAxisd(rpy[0], UnitX) * AngleAxisd(rpy[1], UnitY) * AngleAxisd(rpy[2], UnitZ)`. -/
def recompose (m : CMath α) (pos rpy : Fin 3 → α) : Isometry3d α :=
  { translation := pos
    rotation := AngleAxisd m (rpy 0) UnitX * AngleAxisd m (rpy 1) UnitY * AngleAxisd m (rpy 2) UnitZ }

/-- The method `CartesianTrajectory::get_pose(time)`; the local arrays `pos` and `rpy`, which
the source leaves uninitialised before the loop fills them, start at 0. -/
def CartesianTrajectory.get_pose (m : CMath α) (E : CubicSplineEval α) (self : CartesianTrajectory α)
    (time : α) : Except Failure (Isometry3d α) := do
  let t := if !self.isValid then 0 else time
  let pr ← (List.finRange 3).foldlM
    (fun (pr : (Fin 3 → α) × (Fin 3 → α)) i => do
      let s ← vectorAt self.spline i.val
      let pos := Function.update pr.1 i (E.evaluatePoint s t)
      let s3 ← vectorAt self.spline (i.val + 3)
      let rpy := Function.update pr.2 i (E.evaluatePoint s3 t)
      pure (pos, rpy))
    (fun _ => 0, fun _ => 0)
  pure (recompose m pr.1 pr.2)

/-- The locals and output vectors `get_state` writes in its loop. -/
structure StateVars (α : Type) where
  pos : Fin 3 → α
  rpy : Fin 3 → α
  vel : Fin 6 → α
  acc : Fin 6 → α

/-- Body of the loop of lines 133-137 of `get_state` for one index `i`. -/
def stateStep (E : CubicSplineEval α) (spline : List (CubicSpline α)) (time : α)
    (st : StateVars α) (i : Fin 3) : Except Failure (StateVars α) := do
  let s ← vectorAt spline i.val
  let e := E.evaluatePoint3 s time
  let st : StateVars α :=
    { st with pos := Function.update st.pos i e.1
              vel := Function.update st.vel (Fin.castAdd 3 i) e.2.1
              acc := Function.update st.acc (Fin.castAdd 3 i) e.2.2 }
  let s3 ← vectorAt spline (i.val + 3)
  let e3 := E.evaluatePoint3 s3 time
  pure { st with rpy := Function.update st.rpy i e3.1
                 vel := Function.update st.vel (Fin.natAdd 3 i) e3.2.1
                 acc := Function.update st.acc (Fin.natAdd 3 i) e3.2.2 }

/-- The method `CartesianTrajectory::get_state(pose, vel, acc, time)`; the result is the returned
flag with the final contents of the three output arguments. -/
def CartesianTrajectory.get_state (m : CMath α) (E : CubicSplineEval α) (self : CartesianTrajectory α)
    (pose : Isometry3d α) (vel acc : Fin 6 → α) (time : α) :
    Except Failure (Bool × Isometry3d α × (Fin 6 → α) × (Fin 6 → α)) :=
  if !self.isValid then
    pure (false, pose, vel, acc)
  else do
    let st ← (List.finRange 3).foldlM (stateStep E self.spline time)
      { pos := fun _ => 0, rpy := fun _ => 0, vel := vel, acc := acc }
    pure (true, recompose m st.pos st.rpy, st.vel, st.acc)

end Defs

/-! ## Real-number semantics -/

/-- Exact `<cmath>` over the reals; `atan2 y x` is the argument of `x + y i`. -/
noncomputable def CMath.real : CMath ℝ where
  abs := fun x => |x|
  asin := Real.arcsin
  atan2 := fun y x => Complex.arg ⟨x, y⟩
  sin := Real.sin
  cos := Real.cos
  M_PI := Real.pi

/-- A rotation matrix: `R * Rᵀ = 1` and `det R = 1`. -/
def IsProperOrthogonal (R : Matrix (Fin 3) (Fin 3) ℝ) : Prop :=
  R * R.transpose = 1 ∧ R.det = 1

/-- The interpolant of `s` returns the fitted value at each control time of `s`. -/
def ExactAtControlTimes {α : Type} (E : CubicSplineEval α) (s : CubicSpline α) : Prop :=
  ∀ (j : Nat) (h1 : j < s.m_time.length) (h2 : j < s.m_y.length),
    E.evaluatePoint s s.m_time[j] = s.m_y[j]

/-! ## Closed forms used in the proofs -/

section ClosedForms

variable {α : Type} [Field α] [DecidableEq α]

/-- The value channel `k` (0..5: x, y, z, roll, pitch, yaw) takes for one pose. -/
def channel (m : CMath α) (k : Nat) (p : Isometry3d α) : α :=
  match k with
  | 0 => p.translation 0
  | 1 => p.translation 1
  | 2 => p.translation 2
  | 3 => (eulerAngles m p.rotation).1
  | 4 => (eulerAngles m p.rotation).2.1
  | _ => (eulerAngles m p.rotation).2.2

/-- Row `k` of `points` once the first `i` poses have been extracted. -/
def rowAfter (m : CMath α) (poses : List (Isometry3d α)) (i k : Nat) : List α :=
  (poses.take i).map (channel m k) ++ List.replicate (poses.length - i) 0

/-- What a completed construction leaves in the object: the flag set, and for each channel
`k` a spline fitted to the poses' channel values against `times`. -/
def fitted (m : CMath α) (poses : List (Isometry3d α)) (times : List α) : CartesianTrajectory α :=
  { isValid := true
    numPoses := poses.length
    spline := (List.range 6).map fun k => { m_time := times, m_y := poses.map (channel m k) } }

end ClosedForms

/-! ## Example data -/

/-- An interpolation primitive for the examples: the value fitted at the first control time
equal to `t` (0 when there is none), with zero derivatives. -/
def tableSpline {α : Type} [Zero α] [DecidableEq α] : CubicSplineEval α where
  evaluatePoint s t := ((s.m_time.zip s.m_y).lookup t).getD 0
  evaluatePoint3 s t := (((s.m_time.zip s.m_y).lookup t).getD 0, 0, 0)

/-- The identity pose. -/
def poseA : Isometry3d ℝ := { translation := ![0, 0, 0], rotation := 1 }

/-- The identity rotation, translated by (1, 0, 0). -/
def poseB : Isometry3d ℝ := { translation := ![1, 0, 0], rotation := 1 }

/-- A pitch of 90 degrees: entry (0,2) is 1. -/
def posePitch90 : Isometry3d ℝ :=
  { translation := ![0, 0, 0], rotation := !![0, 0, 1; 0, 1, 0; -1, 0, 0] }

/-- A rotation cycling the axes, translated by (1, 0, 0): entry (0,2) is 1. -/
def poseCycle : Isometry3d ℝ :=
  { translation := ![1, 0, 0], rotation := !![0, 0, 1; 1, 0, 0; 0, 1, 0] }

/-- A pitch of -90 degrees: entry (0,2) is -1. -/
def rotPitchNeg90 : Matrix (Fin 3) (Fin 3) ℝ := !![0, 0, -1; 0, 1, 0; 1, 0, 0]

/-- A yaw of 90 degrees: entry (0,2) is 0. -/
def rotYaw90 : Matrix (Fin 3) (Fin 3) ℝ := !![0, -1, 0; 1, 0, 0; 0, 0, 1]

/-! ## The constructor in closed form -/

section Construct

theorem finRange_three : List.finRange 3 = [0, 1, 2] := by
  decide

theorem rowAfter_length {α : Type} [Field α] [DecidableEq α]
    (m : CMath α) (poses : List (Isometry3d α)) (i k : Nat)
    (h : i ≤ poses.length) : (rowAfter m poses i k).length = poses.length := by
  simp [rowAfter]
  omega

theorem rowAfter_set {α : Type} [Field α] [DecidableEq α]
    (m : CMath α) (poses : List (Isometry3d α)) (i k : Nat)
    (h : i < poses.length) :
    (rowAfter m poses i k).set i (channel m k poses[i]) = rowAfter m poses (i + 1) k := by
  have hlen : ((poses.take i).map (channel m k)).length = i := by
    simp; omega
  have hrep : poses.length - i = (poses.length - (i + 1)) + 1 := by omega
  unfold rowAfter
  rw [List.set_append_right _ _ (by rw [hlen]), hlen, Nat.sub_self, hrep, List.replicate_succ,
    List.set_cons_zero, List.take_succ, List.getElem?_eq_getElem h, List.map_append,
    List.append_assoc]
  rfl

theorem extractPose_rowAfter {α : Type} [Field α] [DecidableEq α]
    (m : CMath α) (poses : List (Isometry3d α)) (i : Nat)
    (h : i < poses.length) :
    extractPose m poses ((List.range 6).map (rowAfter m poses i)) i
      = .ok ((List.range 6).map (rowAfter m poses (i + 1))) := by
  have hl : ∀ k, i < (rowAfter m poses i k).length := fun k => by
    rw [rowAfter_length m poses i k (le_of_lt h)]; exact h
  have hr : List.range 6 = [0, 1, 2, 3, 4, 5] := by decide
  simp only [hr, List.map_cons, List.map_nil]
  unfold extractPose
  simp only [vectorAt, List.getElem?_eq_getElem h, finRange_three]
  simp [writeAt, hl, bind, Except.bind, pure, Except.pure, ← rowAfter_set m poses i _ h, channel]

theorem extract_loop {α : Type} [Field α] [DecidableEq α]
    (m : CMath α) (poses : List (Isometry3d α)) (i : Nat)
    (h : i ≤ poses.length) :
    (List.range i).foldlM (extractPose m poses) ((List.range 6).map (rowAfter m poses 0))
      = .ok ((List.range 6).map (rowAfter m poses i)) := by
  induction i with
  | zero => rfl
  | succ i ih =>
    rw [List.range_succ i, List.foldlM_append, ih (Nat.le_of_succ_le h)]
    simp only [bind, Except.bind, List.foldlM_cons, List.foldlM_nil]
    rw [extractPose_rowAfter m poses i h]
    rfl

theorem construct_eq {α : Type} [Field α] [DecidableEq α]
    (m : CMath α) (poses : List (Isometry3d α)) (times : List α)
    (h1 : poses.length = times.length) (h2 : 2 ≤ poses.length) :
    CartesianTrajectory.construct m poses times = .ok (fitted m poses times) := by
  have hinit : List.replicate 6 (List.replicate poses.length (0 : α))
      = (List.range 6).map (rowAfter m poses 0) := by
    have hr : List.range 6 = [0, 1, 2, 3, 4, 5] := by decide
    simp [hr, rowAfter, List.replicate_succ]
  have hfin : ∀ k, rowAfter m poses poses.length k = poses.map (channel m k) := by
    intro k
    simp [rowAfter]
  have hr : List.range 6 = [0, 1, 2, 3, 4, 5] := by decide
  unfold CartesianTrajectory.construct
  simp only [h1, ne_eq, not_true_eq_false, if_false, if_neg (not_lt.mpr (h1 ▸ h2))]
  rw [← h1, hinit, extract_loop m poses poses.length le_rfl]
  simp [hr, hfin, fitted, fitChannel, vectorAt, bind, Except.bind, pure, Except.pure,
    CubicSpline.setData, List.replicate_succ]

end Construct

/-! ## The queries on six interpolants -/

section Queries

theorem get_pose_six {α : Type} [Field α]
    (m : CMath α) (E : CubicSplineEval α) (valid : Bool) (n : Nat)
    (s0 s1 s2 s3 s4 s5 : CubicSpline α) (t : α) :
    CartesianTrajectory.get_pose m E
        { isValid := valid, numPoses := n, spline := [s0, s1, s2, s3, s4, s5] } t
      = .ok (recompose m
          ![E.evaluatePoint s0 (if valid then t else 0), E.evaluatePoint s1 (if valid then t else 0),
            E.evaluatePoint s2 (if valid then t else 0)]
          ![E.evaluatePoint s3 (if valid then t else 0), E.evaluatePoint s4 (if valid then t else 0),
            E.evaluatePoint s5 (if valid then t else 0)]) := by
  have hu : ∀ a b c : α,
      Function.update (Function.update (Function.update (fun _ : Fin 3 => (0 : α)) 0 a) 1 b) 2 c
        = ![a, b, c] := by
    intro a b c
    funext i
    fin_cases i <;> simp [Function.update]
  cases valid <;>
    simp [CartesianTrajectory.get_pose, finRange_three, vectorAt, bind, Except.bind, pure,
      Except.pure, hu]

theorem get_state_six {α : Type} [Field α]
    (m : CMath α) (E : CubicSplineEval α) (n : Nat)
    (s0 s1 s2 s3 s4 s5 : CubicSpline α) (pose : Isometry3d α) (vel acc : Fin 6 → α) (t : α) :
    CartesianTrajectory.get_state m E
        { isValid := true, numPoses := n, spline := [s0, s1, s2, s3, s4, s5] } pose vel acc t
      = .ok (true,
          recompose m
            ![(E.evaluatePoint3 s0 t).1, (E.evaluatePoint3 s1 t).1, (E.evaluatePoint3 s2 t).1]
            ![(E.evaluatePoint3 s3 t).1, (E.evaluatePoint3 s4 t).1, (E.evaluatePoint3 s5 t).1],
          ![(E.evaluatePoint3 s0 t).2.1, (E.evaluatePoint3 s1 t).2.1, (E.evaluatePoint3 s2 t).2.1,
            (E.evaluatePoint3 s3 t).2.1, (E.evaluatePoint3 s4 t).2.1, (E.evaluatePoint3 s5 t).2.1],
          ![(E.evaluatePoint3 s0 t).2.2, (E.evaluatePoint3 s1 t).2.2, (E.evaluatePoint3 s2 t).2.2,
            (E.evaluatePoint3 s3 t).2.2, (E.evaluatePoint3 s4 t).2.2, (E.evaluatePoint3 s5 t).2.2]) := by
  have hu : ∀ a b c : α,
      Function.update (Function.update (Function.update (fun _ : Fin 3 => (0 : α)) 0 a) 1 b) 2 c
        = ![a, b, c] := by
    intro a b c
    funext i
    fin_cases i <;> simp [Function.update]
  simp only [CartesianTrajectory.get_state, finRange_three, stateStep, vectorAt, bind, Except.bind,
    pure, Except.pure, List.foldlM_cons, List.foldlM_nil, Bool.not_true, Bool.false_eq_true,
    if_false]
  simp only [hu, Fin.isValue, Fin.val_zero, Fin.val_one, Fin.val_two, List.getElem?_cons_zero,
    List.getElem?_cons_succ, zero_add, Nat.reduceAdd]
  refine congrArg Except.ok (Prod.ext rfl (Prod.ext rfl (Prod.ext ?_ ?_)))
  · funext i
    fin_cases i <;> rfl
  · funext i
    fin_cases i <;> rfl

theorem fitted_spline {α : Type} [Field α] [DecidableEq α]
    (m : CMath α) (poses : List (Isometry3d α)) (times : List α) :
    (fitted m poses times).spline
      = [{ m_time := times, m_y := poses.map (channel m 0) },
         { m_time := times, m_y := poses.map (channel m 1) },
         { m_time := times, m_y := poses.map (channel m 2) },
         { m_time := times, m_y := poses.map (channel m 3) },
         { m_time := times, m_y := poses.map (channel m 4) },
         { m_time := times, m_y := poses.map (channel m 5) }] := by
  have hr : List.range 6 = [0, 1, 2, 3, 4, 5] := by decide
  simp [fitted, hr]

theorem construct_ok_iff {α : Type} [Field α] [DecidableEq α]
    (m : CMath α) (poses : List (Isometry3d α)) (times : List α)
    (traj : CartesianTrajectory α) :
    CartesianTrajectory.construct m poses times = .ok traj
      ↔ (poses.length = times.length ∧ 2 ≤ poses.length) ∧ traj = fitted m poses times := by
  by_cases h1 : poses.length = times.length
  · by_cases h2 : 2 ≤ poses.length
    · rw [construct_eq m poses times h1 h2]
      constructor
      · intro h
        exact ⟨⟨h1, h2⟩, (Except.ok.inj h).symm⟩
      · rintro ⟨-, rfl⟩
        rfl
    · have h3 : poses.length < 2 := not_le.mp h2
      rw [CartesianTrajectory.construct]
      simp only [if_neg (not_not.mpr h1), if_pos h3]
      simp [h2]
  · simp [CartesianTrajectory.construct, h1]

end Queries

/-! ## Recomposition and rotation matrices -/

section Rotation

theorem recompose_rotation {α : Type} [Field α] (m : CMath α) (pos rpy : Fin 3 → α) :
    (recompose m pos rpy).rotation
      = !![m.cos (rpy 1) * m.cos (rpy 2), -(m.cos (rpy 1) * m.sin (rpy 2)), m.sin (rpy 1);
           m.cos (rpy 0) * m.sin (rpy 2) + m.sin (rpy 0) * m.sin (rpy 1) * m.cos (rpy 2),
           m.cos (rpy 0) * m.cos (rpy 2) - m.sin (rpy 0) * m.sin (rpy 1) * m.sin (rpy 2),
           -(m.sin (rpy 0) * m.cos (rpy 1));
           m.sin (rpy 0) * m.sin (rpy 2) - m.cos (rpy 0) * m.sin (rpy 1) * m.cos (rpy 2),
           m.sin (rpy 0) * m.cos (rpy 2) + m.cos (rpy 0) * m.sin (rpy 1) * m.sin (rpy 2),
           m.cos (rpy 0) * m.cos (rpy 1)] := by
  ext i j
  fin_cases i <;> fin_cases j <;>
    simp [recompose, AngleAxisd, UnitX, UnitY, UnitZ, Matrix.mul_apply, Fin.sum_univ_three] <;>
    ring

/-- The nine entries of a 3×3 matrix. -/
theorem matrix_eta (R : Matrix (Fin 3) (Fin 3) ℝ) :
    R = !![R 0 0, R 0 1, R 0 2; R 1 0, R 1 1, R 1 2; R 2 0, R 2 1, R 2 2] := by
  ext i j
  fin_cases i <;> fin_cases j <;> rfl

theorem adjugate_eq_transpose (R : Matrix (Fin 3) (Fin 3) ℝ) (hR : IsProperOrthogonal R) :
    R.adjugate = R.transpose := by
  have h1 : R.transpose * R = 1 := (Matrix.mul_eq_one_comm).mp hR.1
  calc R.adjugate = (R.transpose * R) * R.adjugate := by rw [h1, one_mul]
    _ = R.transpose * (R * R.adjugate) := by rw [Matrix.mul_assoc]
    _ = R.transpose := by rw [Matrix.mul_adjugate, hR.2, one_smul, mul_one]

/-- Each entry of the lower-left block of a rotation matrix is its cofactor. -/
theorem cofactors (R : Matrix (Fin 3) (Fin 3) ℝ) (hR : IsProperOrthogonal R) :
    R 1 0 = R 0 2 * R 2 1 - R 0 1 * R 2 2 ∧ R 1 1 = R 0 0 * R 2 2 - R 0 2 * R 2 0 ∧
    R 2 0 = R 0 1 * R 1 2 - R 0 2 * R 1 1 ∧ R 2 1 = R 0 2 * R 1 0 - R 0 0 * R 1 2 := by
  have h := adjugate_eq_transpose R hR
  rw [Matrix.adjugate_fin_three] at h
  have e01 := congrFun (congrFun h 0) 1
  have e11 := congrFun (congrFun h 1) 1
  have e02 := congrFun (congrFun h 0) 2
  have e12 := congrFun (congrFun h 1) 2
  simp at e01 e11 e02 e12
  refine ⟨?_, ?_, ?_, ?_⟩ <;> linarith

/-- Row 0, row 1 and column 2 of a rotation matrix have unit norm. -/
theorem unit_norms (R : Matrix (Fin 3) (Fin 3) ℝ) (hR : IsProperOrthogonal R) :
    R 0 0 ^ 2 + R 0 1 ^ 2 + R 0 2 ^ 2 = 1 ∧ R 1 0 ^ 2 + R 1 1 ^ 2 + R 1 2 ^ 2 = 1 ∧
    R 0 2 ^ 2 + R 1 2 ^ 2 + R 2 2 ^ 2 = 1 := by
  have h1 : R.transpose * R = 1 := (Matrix.mul_eq_one_comm).mp hR.1
  have r0 := congrFun (congrFun hR.1 0) 0
  have r1 := congrFun (congrFun hR.1 1) 1
  have c2 := congrFun (congrFun h1 2) 2
  simp [Matrix.mul_apply, Fin.sum_univ_three] at r0 r1 c2
  refine ⟨?_, ?_, ?_⟩ <;> nlinarith

/-- Sine and cosine of `atan2 y x` for a point at distance `c > 0` from the origin. -/
theorem sin_cos_atan2 (y x c : ℝ) (hc : 0 < c) (h : x ^ 2 + y ^ 2 = c ^ 2) :
    Real.sin (CMath.real.atan2 y x) = y / c ∧ Real.cos (CMath.real.atan2 y x) = x / c := by
  have habs : Complex.abs ⟨x, y⟩ = c := by
    rw [Complex.abs_apply, Complex.normSq_mk, ← pow_two, ← pow_two, h, Real.sqrt_sq hc.le]
  have hz : (⟨x, y⟩ : ℂ) ≠ 0 := by
    intro h0
    rw [h0, map_zero] at habs
    exact hc.ne habs
  constructor
  · show Real.sin (Complex.arg ⟨x, y⟩) = y / c
    rw [Complex.sin_arg, habs]
  · show Real.cos (Complex.arg ⟨x, y⟩) = x / c
    rw [Complex.cos_arg hz, habs]

/-- Away from the singularity the angles the constructor extracts recompose to the matrix. -/
theorem recompose_regular (R : Matrix (Fin 3) (Fin 3) ℝ) (hR : IsProperOrthogonal R)
    (hne : |R 0 2| ≠ 1) (pos : Fin 3 → ℝ) :
    (recompose CMath.real pos
      ![CMath.real.atan2 (-R 1 2) (R 2 2), CMath.real.asin (R 0 2),
        CMath.real.atan2 (-R 0 1) (R 0 0)]).rotation = R := by
  obtain ⟨n0, -, n2⟩ := unit_norms R hR
  obtain ⟨e10, e11, e20, e21⟩ := cofactors R hR
  have hsq : R 0 2 ^ 2 < 1 := by
    rcases lt_or_ge (R 0 2 ^ 2) 1 with h | h
    · exact h
    · exfalso
      apply hne
      have h1 : |R 0 2| ^ 2 = 1 := by
        rw [sq_abs]
        nlinarith [sq_nonneg (R 0 0), sq_nonneg (R 0 1)]
      have h2 : (|R 0 2| - 1) * (|R 0 2| + 1) = 0 := by linear_combination h1
      rcases mul_eq_zero.mp h2 with h3 | h3
      · linarith
      · linarith [abs_nonneg (R 0 2)]
  have hcpos : 0 < √(1 - R 0 2 ^ 2) := Real.sqrt_pos.mpr (by linarith)
  have hc2 : √(1 - R 0 2 ^ 2) ^ 2 = 1 - R 0 2 ^ 2 := Real.sq_sqrt (by linarith)
  have hb : -1 ≤ R 0 2 ∧ R 0 2 ≤ 1 := by
    constructor <;> nlinarith
  have hsp : Real.sin (CMath.real.asin (R 0 2)) = R 0 2 := Real.sin_arcsin hb.1 hb.2
  have hcp : Real.cos (CMath.real.asin (R 0 2)) = √(1 - R 0 2 ^ 2) := Real.cos_arcsin _
  obtain ⟨hsr, hcr⟩ := sin_cos_atan2 (-R 1 2) (R 2 2) _ hcpos (by rw [hc2]; linarith)
  obtain ⟨hsy, hcy⟩ := sin_cos_atan2 (-R 0 1) (R 0 0) _ hcpos (by rw [hc2]; linarith)
  rw [recompose_rotation]
  conv_rhs => rw [matrix_eta R]
  simp only [Matrix.cons_val_zero, Matrix.cons_val_one, Matrix.cons_val_two, Matrix.head_cons,
    Matrix.tail_cons]
  have hs : CMath.real.sin = Real.sin := rfl
  have hco : CMath.real.cos = Real.cos := rfl
  rw [hs, hco, hsp, hcp, hsr, hcr, hsy, hcy]
  generalize √(1 - R 0 2 ^ 2) = c at *
  have hc0 : c ≠ 0 := hcpos.ne'
  ext i j
  fin_cases i <;> fin_cases j <;> simp <;> field_simp
  · linear_combination (c * c) * (-R 1 0 * hc2 - e10 - R 0 2 * e21)
  · linear_combination -R 1 1 * hc2 - e11 + R 0 2 * e20
  · linear_combination -R 2 0 * hc2 - e20 + R 0 2 * e11
  · linear_combination (c * c) * (-R 2 1 * hc2 - e21 - R 0 2 * e10)

theorem sin_cos_neg_half_pi :
    CMath.real.sin (-CMath.real.M_PI / 2) = -1 ∧ CMath.real.cos (-CMath.real.M_PI / 2) = 0 := by
  constructor
  · show Real.sin (-Real.pi / 2) = -1
    rw [neg_div, Real.sin_neg, Real.sin_pi_div_two]
  · show Real.cos (-Real.pi / 2) = 0
    rw [neg_div, Real.cos_neg, Real.cos_pi_div_two]

/-- With `R 0 2 = -1` the angles of the gimbal-lock branch recompose to the matrix. -/
theorem recompose_singular_neg (R : Matrix (Fin 3) (Fin 3) ℝ) (hR : IsProperOrthogonal R)
    (h02 : R 0 2 = -1) (pos : Fin 3 → ℝ) :
    (recompose CMath.real pos
      ![CMath.real.atan2 (-R 1 0) (R 1 1), -CMath.real.M_PI / 2, 0]).rotation = R := by
  obtain ⟨n0, n1, n2⟩ := unit_norms R hR
  obtain ⟨e10, e11, e20, e21⟩ := cofactors R hR
  have h00 : R 0 0 = 0 := by
    have : R 0 0 ^ 2 = 0 := by nlinarith [sq_nonneg (R 0 0), sq_nonneg (R 0 1)]
    exact pow_eq_zero_iff (two_ne_zero) |>.mp this
  have h01 : R 0 1 = 0 := by
    have : R 0 1 ^ 2 = 0 := by nlinarith [sq_nonneg (R 0 0), sq_nonneg (R 0 1)]
    exact pow_eq_zero_iff (two_ne_zero) |>.mp this
  have h12 : R 1 2 = 0 := by
    have : R 1 2 ^ 2 = 0 := by nlinarith [sq_nonneg (R 1 2), sq_nonneg (R 2 2)]
    exact pow_eq_zero_iff (two_ne_zero) |>.mp this
  have h22 : R 2 2 = 0 := by
    have : R 2 2 ^ 2 = 0 := by nlinarith [sq_nonneg (R 1 2), sq_nonneg (R 2 2)]
    exact pow_eq_zero_iff (two_ne_zero) |>.mp this
  obtain ⟨hsr, hcr⟩ := sin_cos_atan2 (-R 1 0) (R 1 1) 1 one_pos (by rw [h12] at n1; linarith)
  obtain ⟨hsp, hcp⟩ := sin_cos_neg_half_pi
  have hs0 : CMath.real.sin 0 = 0 := Real.sin_zero
  have hc0 : CMath.real.cos 0 = 1 := Real.cos_zero
  have hs : CMath.real.sin = Real.sin := rfl
  have hco : CMath.real.cos = Real.cos := rfl
  rw [recompose_rotation]
  conv_rhs => rw [matrix_eta R]
  simp only [Matrix.cons_val_zero, Matrix.cons_val_one, Matrix.cons_val_two, Matrix.head_cons,
    Matrix.tail_cons]
  rw [hsp, hcp, hs0, hc0, hs, hco, hsr, hcr, h00, h01, h02, h12, h22]
  rw [h00, h02, h12] at e21
  rw [h01, h02, h12] at e20
  ext i j
  fin_cases i <;> fin_cases j <;> simp <;> linarith

/-- With `R 0 2 = 1` the gimbal-lock branch is taken and its constant pitch recomposes to a
matrix whose entry (0,2) is `-1`. -/
theorem recompose_singular_pos (R : Matrix (Fin 3) (Fin 3) ℝ) (h02 : R 0 2 = 1)
    (pos : Fin 3 → ℝ) :
    eulerAngles CMath.real R = (CMath.real.atan2 (-R 1 0) (R 1 1), -CMath.real.M_PI / 2, 0) ∧
    (recompose CMath.real pos
      ![CMath.real.atan2 (-R 1 0) (R 1 1), -CMath.real.M_PI / 2, 0]).rotation 0 2 = -1 := by
  constructor
  · have : CMath.real.abs (R 0 2) = 1 := by
      show |R 0 2| = 1
      rw [h02, abs_one]
    simp [eulerAngles, this]
  · rw [recompose_rotation]
    simpa using sin_cos_neg_half_pi.1

end Rotation

/-! ## Waypoints and example data -/

section Waypoints

theorem tableSpline_exact_two {α : Type} [Field α] [DecidableEq α]
    (t0 t1 a b : α) (h : t1 ≠ t0) :
    ExactAtControlTimes tableSpline { m_time := [t0, t1], m_y := [a, b] } := by
  have hb : (t1 == t0) = false := by simp [h]
  intro j h1 h2
  match j, h1, h2 with
  | 0, _, _ => simp [tableSpline, List.lookup]
  | 1, _, _ => simp [tableSpline, List.lookup, hb]

/-- At the time of waypoint `i`, with interpolants exact at their control times, `get_pose`
recomposes the six channel values the constructor extracted from `poses[i]`. -/
theorem get_pose_at_waypoint {α : Type} [Field α] [DecidableEq α]
    (m : CMath α) (E : CubicSplineEval α) (poses : List (Isometry3d α))
    (times : List α) (traj : CartesianTrajectory α)
    (h : CartesianTrajectory.construct m poses times = .ok traj)
    (hE : ∀ s ∈ traj.spline, ExactAtControlTimes E s)
    (i : Nat) (hi : i < poses.length) (hit : i < times.length) :
    traj.get_pose m E times[i]
      = .ok (recompose m
          ![poses[i].translation 0, poses[i].translation 1, poses[i].translation 2]
          ![(eulerAngles m poses[i].rotation).1, (eulerAngles m poses[i].rotation).2.1,
            (eulerAngles m poses[i].rotation).2.2]) := by
  obtain ⟨-, rfl⟩ := (construct_ok_iff m poses times traj).mp h
  have hs := fitted_spline m poses times
  have hx : ∀ k, E.evaluatePoint { m_time := times, m_y := poses.map (channel m k) } times[i]
      = channel m k poses[i] := by
    intro k
    have := hE { m_time := times, m_y := poses.map (channel m k) }
      (by rw [hs]; have : k < 6 ∨ 6 ≤ k := Nat.lt_or_ge k 6
          rcases this with hk | hk
          · interval_cases k <;> simp
          · have : channel m k = channel m 5 := by
              funext p
              match k, hk with
              | k + 6, _ => rfl
            rw [this]; simp) i hit (by simpa using hi)
    simpa using this
  have hv : (fitted m poses times) = { isValid := true, numPoses := poses.length, spline :=
      (fitted m poses times).spline } := rfl
  rw [hv, hs, get_pose_six]
  simp only [if_true, hx]
  rfl

/-- At a waypoint whose rotation matrix has an entry (0,2) other than 1, `get_pose` at the
waypoint's time, with interpolants exact at their control times, returns the waypoint's
translation and rotation. -/
theorem round_trip_of_ne_one (E : CubicSplineEval ℝ) (poses : List (Isometry3d ℝ))
    (times : List ℝ) (traj : CartesianTrajectory ℝ) (i : Nat) (hi : i < poses.length)
    (hit : i < times.length)
    (h : CartesianTrajectory.construct CMath.real poses times = .ok traj)
    (hE : ∀ s ∈ traj.spline, ExactAtControlTimes E s)
    (hR : IsProperOrthogonal poses[i].rotation) (h02 : poses[i].rotation 0 2 ≠ 1) :
    ∃ p, traj.get_pose CMath.real E times[i] = .ok p ∧
      p.translation = poses[i].translation ∧ p.rotation = poses[i].rotation := by
  refine ⟨_, get_pose_at_waypoint CMath.real E poses times traj h hE i hi hit, ?_, ?_⟩
  · funext k
    fin_cases k <;> rfl
  · by_cases hs : |poses[i].rotation 0 2| = 1
    · have hneg : poses[i].rotation 0 2 = -1 := by
        rcases abs_eq (zero_le_one' ℝ) |>.mp hs with h1 | h1
        · exact absurd h1 h02
        · exact h1
      have hang : eulerAngles CMath.real poses[i].rotation
          = (CMath.real.atan2 (-poses[i].rotation 1 0) (poses[i].rotation 1 1),
             -CMath.real.M_PI / 2, 0) := by
        have : CMath.real.abs (poses[i].rotation 0 2) = 1 := hs
        simp [eulerAngles, this]
      rw [hang]
      exact recompose_singular_neg _ hR hneg _
    · have hang : eulerAngles CMath.real poses[i].rotation
          = (CMath.real.atan2 (-poses[i].rotation 1 2) (poses[i].rotation 2 2),
             CMath.real.asin (poses[i].rotation 0 2),
             CMath.real.atan2 (-poses[i].rotation 0 1) (poses[i].rotation 0 0)) := by
        have : CMath.real.abs (poses[i].rotation 0 2) ≠ 1 := hs
        simp [eulerAngles, this]
      rw [hang]
      exact recompose_regular _ hR hs _

theorem tableSpline_exact_fitted {α : Type} [Field α] [DecidableEq α]
    (m : CMath α) (p q : Isometry3d α) (t0 t1 : α) (h : t1 ≠ t0) :
    ∀ s ∈ (fitted m [p, q] [t0, t1]).spline, ExactAtControlTimes tableSpline s := by
  intro s hs
  rw [fitted_spline] at hs
  simp only [List.mem_cons, List.mem_singleton, List.not_mem_nil, or_false, List.map_cons,
    List.map_nil] at hs
  rcases hs with rfl | rfl | rfl | rfl | rfl | rfl <;> exact tableSpline_exact_two _ _ _ _ h

theorem isProperOrthogonal_one : IsProperOrthogonal 1 := by
  simp [IsProperOrthogonal]

theorem isProperOrthogonal_posePitch90 : IsProperOrthogonal posePitch90.rotation := by
  constructor
  · ext i j
    simp only [Matrix.mul_apply, Matrix.transpose_apply, Fin.sum_univ_three, Matrix.one_apply]
    fin_cases i <;> fin_cases j <;> simp [posePitch90, Matrix.vecHead, Matrix.vecTail]
  · simp [posePitch90, Matrix.det_fin_three]

theorem isProperOrthogonal_poseCycle : IsProperOrthogonal poseCycle.rotation := by
  constructor
  · ext i j
    simp only [Matrix.mul_apply, Matrix.transpose_apply, Fin.sum_univ_three, Matrix.one_apply]
    fin_cases i <;> fin_cases j <;> simp [poseCycle, Matrix.vecHead, Matrix.vecTail]
  · simp [poseCycle, Matrix.det_fin_three]

theorem isProperOrthogonal_rotPitchNeg90 : IsProperOrthogonal rotPitchNeg90 := by
  constructor
  · ext i j
    simp only [Matrix.mul_apply, Matrix.transpose_apply, Fin.sum_univ_three, Matrix.one_apply]
    fin_cases i <;> fin_cases j <;> simp [rotPitchNeg90, Matrix.vecHead, Matrix.vecTail]
  · simp [rotPitchNeg90, Matrix.det_fin_three]

theorem isProperOrthogonal_rotYaw90 : IsProperOrthogonal rotYaw90 := by
  constructor
  · ext i j
    simp only [Matrix.mul_apply, Matrix.transpose_apply, Fin.sum_univ_three, Matrix.one_apply]
    fin_cases i <;> fin_cases j <;> simp [rotYaw90, Matrix.vecHead, Matrix.vecTail]
  · simp [rotYaw90, Matrix.det_fin_three]

end Waypoints

/-! ## Claims -/

section Claims

/-- C1: the constructor ends in `invalid_argument` exactly when the numbers of poses and times
differ or there are fewer than two poses, and completes with a trajectory for every other
input; so 3 poses with 2 times fail, 1 pose with 1 time fails, 2 poses with 2 times succeed. -/
theorem construct_fails_iff {α : Type} [Field α] [DecidableEq α]
    (m : CMath α) (poses : List (Isometry3d α)) (times : List α) :
    ((∃ what, CartesianTrajectory.construct m poses times = .error (.invalid_argument what))
      ↔ (poses.length ≠ times.length ∨ poses.length < 2)) ∧
    ((∃ traj, CartesianTrajectory.construct m poses times = .ok traj)
      ↔ ¬ (poses.length ≠ times.length ∨ poses.length < 2)) ∧
    (poses.length = 3 → times.length = 2 →
      ∃ what, CartesianTrajectory.construct m poses times = .error (.invalid_argument what)) ∧
    (poses.length = 1 → times.length = 1 →
      ∃ what, CartesianTrajectory.construct m poses times = .error (.invalid_argument what)) ∧
    (poses.length = 2 → times.length = 2 →
      ∃ traj, CartesianTrajectory.construct m poses times = .ok traj) := by
  have hfail : (poses.length ≠ times.length ∨ poses.length < 2) →
      ∃ what, CartesianTrajectory.construct m poses times = .error (.invalid_argument what) := by
    intro h
    by_cases h1 : poses.length = times.length
    · have h2 : poses.length < 2 := h.resolve_left (not_not.mpr h1)
      rw [CartesianTrajectory.construct]
      simp only [if_neg (not_not.mpr h1), if_pos h2]
      exact ⟨_, rfl⟩
    · rw [CartesianTrajectory.construct]
      simp only [if_pos h1]
      exact ⟨_, rfl⟩
  have hok : ¬ (poses.length ≠ times.length ∨ poses.length < 2) →
      ∃ traj, CartesianTrajectory.construct m poses times = .ok traj := by
    intro h
    have h1 : poses.length = times.length := by
      by_contra hne
      exact h (Or.inl hne)
    have h2 : 2 ≤ poses.length := by
      by_contra hlt
      exact h (Or.inr (not_le.mp hlt))
    exact ⟨_, construct_eq m poses times h1 h2⟩
  refine ⟨⟨?_, hfail⟩, ⟨?_, hok⟩, ?_, ?_, ?_⟩
  · rintro ⟨what, hw⟩
    by_contra hc
    obtain ⟨traj, ht⟩ := hok hc
    rw [ht] at hw
    exact Except.noConfusion hw
  · rintro ⟨traj, ht⟩ hc
    obtain ⟨what, hw⟩ := hfail hc
    rw [ht] at hw
    exact Except.noConfusion hw
  · intro hp ht
    exact hfail (Or.inl (by omega))
  · intro hp _
    exact hfail (Or.inr (by omega))
  · intro hp ht
    exact hok (by omega)

/-- C2: on a trajectory whose validity flag is false, `get_state` returns false and leaves
`pose`, `vel` and `acc` as they were passed in, whatever the query time. -/
theorem get_state_invalid {α : Type} [Field α]
    (m : CMath α) (E : CubicSplineEval α) (self : CartesianTrajectory α)
    (pose : Isometry3d α) (vel acc : Fin 6 → α) (time : α) (h : self.isValid = false) :
    self.get_state m E pose vel acc time = .ok (false, pose, vel, acc) := by
  simp [CartesianTrajectory.get_state, h, pure, Except.pure]

/-- An unconstructed trajectory: the outputs `poseB`, 7 and 9 come back untouched. -/
theorem get_state_invalid_witness :
    CartesianTrajectory.get_state CMath.real tableSpline
        { isValid := false, numPoses := 2, spline := [] } poseB (fun _ => 7) (fun _ => 9) 1
      = .ok (false, poseB, fun _ => 7, fun _ => 9) :=
  get_state_invalid CMath.real tableSpline _ poseB (fun _ => 7) (fun _ => 9) 1 rfl

/-- C3, evaluated on the code: on a trajectory left in its initial state (flag false,
interpolant vector empty) `get_pose` sets the time to 0 and then reads `spline[0]` past
the end of the vector, so no pose is produced, whatever the query time. -/
theorem get_pose_unconstructed {α : Type} [Field α]
    (m : CMath α) (E : CubicSplineEval α) (n : Nat) (time : α) :
    CartesianTrajectory.get_pose m E { isValid := false, numPoses := n, spline := [] } time
      = .error .out_of_bounds := by
  simp [CartesianTrajectory.get_pose, finRange_three, vectorAt, bind, Except.bind]

/-- C6: on a constructed trajectory `get_state` returns true, sets `vel[k]` and `acc[k]`
(k = 0..5: x, y, z, roll, pitch, yaw) to the first and second derivative of interpolant `k`
at the query time, and writes the pose recomposed from the six values, which is the pose
`get_pose` returns when the two evaluation entry points agree on the value there. -/
theorem get_state_constructed {α : Type} [Field α] [DecidableEq α]
    (m : CMath α) (E : CubicSplineEval α)
    (poses : List (Isometry3d α)) (times : List α) (traj : CartesianTrajectory α)
    (pose : Isometry3d α) (vel acc : Fin 6 → α) (t : α)
    (h : CartesianTrajectory.construct m poses times = .ok traj) :
    ∃ (s0 s1 s2 s3 s4 s5 : CubicSpline α) (p : Isometry3d α),
      traj.spline = [s0, s1, s2, s3, s4, s5] ∧
      p = recompose m
        ![(E.evaluatePoint3 s0 t).1, (E.evaluatePoint3 s1 t).1, (E.evaluatePoint3 s2 t).1]
        ![(E.evaluatePoint3 s3 t).1, (E.evaluatePoint3 s4 t).1, (E.evaluatePoint3 s5 t).1] ∧
      traj.get_state m E pose vel acc t
        = .ok (true, p,
            ![(E.evaluatePoint3 s0 t).2.1, (E.evaluatePoint3 s1 t).2.1,
              (E.evaluatePoint3 s2 t).2.1, (E.evaluatePoint3 s3 t).2.1,
              (E.evaluatePoint3 s4 t).2.1, (E.evaluatePoint3 s5 t).2.1],
            ![(E.evaluatePoint3 s0 t).2.2, (E.evaluatePoint3 s1 t).2.2,
              (E.evaluatePoint3 s2 t).2.2, (E.evaluatePoint3 s3 t).2.2,
              (E.evaluatePoint3 s4 t).2.2, (E.evaluatePoint3 s5 t).2.2]) ∧
      ((∀ s ∈ traj.spline, (E.evaluatePoint3 s t).1 = E.evaluatePoint s t) →
        traj.get_pose m E t = .ok p) := by
  obtain ⟨-, rfl⟩ := (construct_ok_iff m poses times traj).mp h
  have hs := fitted_spline m poses times
  have hv : (fitted m poses times) = { isValid := true, numPoses := poses.length, spline :=
      (fitted m poses times).spline } := rfl
  refine ⟨_, _, _, _, _, _, _, hs, rfl, ?hstate, ?hpose⟩
  case hstate =>
    rw [hv, hs]
    exact get_state_six m E poses.length _ _ _ _ _ _ pose vel acc t
  case hpose =>
    intro hagree
    rw [hs] at hagree
    rw [hv, hs, get_pose_six]
    simp only [if_true]
    rw [← hagree _ (by simp), ← hagree _ (by simp), ← hagree _ (by simp), ← hagree _ (by simp),
      ← hagree _ (by simp), ← hagree _ (by simp)]

/-- Two waypoints (identity at 0, shifted by (1,0,0) at 1), queried at 1/2. -/
theorem get_state_constructed_witness :
    ∃ traj p v a, CartesianTrajectory.construct CMath.real [poseA, poseB] [0, 1] = .ok traj ∧
      traj.get_state CMath.real tableSpline poseA (fun _ => 0) (fun _ => 0) (1 / 2)
        = .ok (true, p, v, a) := by
  have hc := construct_eq CMath.real [poseA, poseB] [0, 1] rfl (le_refl 2)
  obtain ⟨s0, s1, s2, s3, s4, s5, p, -, -, hst, -⟩ :=
    get_state_constructed CMath.real tableSpline [poseA, poseB] [0, 1] _ poseA (fun _ => 0)
      (fun _ => 0) (1 / 2) hc
  exact ⟨_, _, _, _, hc, hst⟩

/-- C7: after a completed construction the six interpolants are, in order, those of x, y, z,
roll, pitch and yaw; each is fitted against `times` as given and holds one value per pose; at
index `i` the first three hold the translation of `poses[i]` and the last three the angles
of the regular branch when `|R(0,2)| ≠ 1` and of the gimbal-lock branch otherwise. -/
theorem construct_channels {α : Type} [Field α] [DecidableEq α]
    (m : CMath α) (poses : List (Isometry3d α)) (times : List α)
    (traj : CartesianTrajectory α)
    (h : CartesianTrajectory.construct m poses times = .ok traj) :
    ∃ sx sy sz sroll spitch syaw : CubicSpline α,
      traj.spline = [sx, sy, sz, sroll, spitch, syaw] ∧
      (∀ s ∈ traj.spline, s.m_time = times ∧ s.m_y.length = poses.length) ∧
      ∀ (i : Nat) (hi : i < poses.length),
        sx.m_y[i]? = some (poses[i].translation 0) ∧
        sy.m_y[i]? = some (poses[i].translation 1) ∧
        sz.m_y[i]? = some (poses[i].translation 2) ∧
        (m.abs (poses[i].rotation 0 2) ≠ 1 →
          sroll.m_y[i]? = some (m.atan2 (-poses[i].rotation 1 2) (poses[i].rotation 2 2)) ∧
          spitch.m_y[i]? = some (m.asin (poses[i].rotation 0 2)) ∧
          syaw.m_y[i]? = some (m.atan2 (-poses[i].rotation 0 1) (poses[i].rotation 0 0))) ∧
        (m.abs (poses[i].rotation 0 2) = 1 →
          sroll.m_y[i]? = some (m.atan2 (-poses[i].rotation 1 0) (poses[i].rotation 1 1)) ∧
          spitch.m_y[i]? = some (-m.M_PI / 2) ∧
          syaw.m_y[i]? = some 0) := by
  obtain ⟨-, rfl⟩ := (construct_ok_iff m poses times traj).mp h
  have hs := fitted_spline m poses times
  refine ⟨_, _, _, _, _, _, hs, ?_, ?_⟩
  · intro s hmem
    rw [hs] at hmem
    simp only [List.mem_cons, List.mem_singleton, List.not_mem_nil, or_false] at hmem
    rcases hmem with rfl | rfl | rfl | rfl | rfl | rfl <;> simp
  · intro i hi
    refine ⟨?_, ?_, ?_, ?_, ?_⟩
    · simp [hi, channel]
    · simp [hi, channel]
    · simp [hi, channel]
    · intro hne
      simp [hi, channel, eulerAngles, hne]
    · intro heq
      simp [hi, channel, eulerAngles, heq]

/-- Two waypoints, the second one in gimbal lock: two values and the given times a channel. -/
theorem construct_channels_witness :
    ∃ traj, CartesianTrajectory.construct CMath.real [poseA, posePitch90] [0, 1] = .ok traj ∧
      ∀ s ∈ traj.spline, s.m_time = [0, 1] ∧ s.m_y.length = 2 := by
  have hc := construct_eq CMath.real [poseA, posePitch90] [0, 1] rfl (le_refl 2)
  obtain ⟨sx, sy, sz, sroll, spitch, syaw, -, hall, -⟩ :=
    construct_channels CMath.real [poseA, posePitch90] [0, 1] _ hc
  exact ⟨_, hc, hall⟩

/-- C10: a trajectory the constructor returns has its flag set and holds exactly six
interpolants, so the reads `spline[0..5]` are in bounds, `get_state` returns true at every
query time, and `get_pose` evaluates the interpolants at the query time itself. -/
theorem construct_invariant {α : Type} [Field α] [DecidableEq α]
    (m : CMath α) (E : CubicSplineEval α) (poses : List (Isometry3d α))
    (times : List α) (traj : CartesianTrajectory α)
    (h : CartesianTrajectory.construct m poses times = .ok traj) :
    traj.isValid = true ∧ traj.spline.length = 6 ∧
    (∀ k, k < 6 → ∃ s, vectorAt traj.spline k = .ok s) ∧
    (∀ (pose : Isometry3d α) (vel acc : Fin 6 → α) (t : α),
      ∃ p v a, traj.get_state m E pose vel acc t = .ok (true, p, v, a)) ∧
    ∃ s0 s1 s2 s3 s4 s5 : CubicSpline α,
      traj.spline = [s0, s1, s2, s3, s4, s5] ∧
      ∀ t : α, traj.get_pose m E t
        = .ok (recompose m
            ![E.evaluatePoint s0 t, E.evaluatePoint s1 t, E.evaluatePoint s2 t]
            ![E.evaluatePoint s3 t, E.evaluatePoint s4 t, E.evaluatePoint s5 t]) := by
  obtain ⟨-, rfl⟩ := (construct_ok_iff m poses times traj).mp h
  have hs := fitted_spline m poses times
  have hv : (fitted m poses times) = { isValid := true, numPoses := poses.length, spline :=
      (fitted m poses times).spline } := rfl
  refine ⟨rfl, by rw [hs]; rfl, ?_, ?_, _, _, _, _, _, _, hs, ?_⟩
  · intro k hk
    rw [hs]
    interval_cases k <;> exact ⟨_, rfl⟩
  · intro pose vel acc t
    rw [hv, hs, get_state_six]
    exact ⟨_, _, _, rfl⟩
  · intro t
    rw [hv, hs, get_pose_six]
    simp only [if_true]

/-- Two waypoints: the constructed trajectory is valid and holds six interpolants. -/
theorem construct_invariant_witness :
    ∃ traj, CartesianTrajectory.construct CMath.real [poseA, poseB] [0, 1] = .ok traj ∧
      traj.isValid = true ∧ traj.spline.length = 6 := by
  have hc := construct_eq CMath.real [poseA, poseB] [0, 1] rfl (le_refl 2)
  obtain ⟨h1, h2, -⟩ := construct_invariant CMath.real tableSpline [poseA, poseB] [0, 1] _ hc
  exact ⟨_, hc, h1, h2⟩

/-- C8: for a rotation matrix `R` with `|R(0,2)| ≠ 1` the constructor extracts
pitch = asin(R(0,2)), roll = atan2(-R(1,2), R(2,2)), yaw = atan2(-R(0,1), R(0,0)), and the
recomposition of `get_pose` and `get_state` (translation, then RotX(roll) * RotY(pitch) *
RotZ(yaw)) applied to these angles has rotation `R` again: as the expression itself, as the
pose `get_pose` returns and as the pose `get_state` writes whenever the three orientation
interpolants evaluate to these angles. -/
theorem recompose_inverts_regular (R : Matrix (Fin 3) (Fin 3) ℝ) (hR : IsProperOrthogonal R)
    (hne : |R 0 2| ≠ 1) :
    eulerAngles CMath.real R
      = (CMath.real.atan2 (-R 1 2) (R 2 2), CMath.real.asin (R 0 2),
         CMath.real.atan2 (-R 0 1) (R 0 0)) ∧
    (∀ pos : Fin 3 → ℝ,
      (recompose CMath.real pos
        ![(eulerAngles CMath.real R).1, (eulerAngles CMath.real R).2.1,
          (eulerAngles CMath.real R).2.2]).rotation = R ∧
      (recompose CMath.real pos
        ![(eulerAngles CMath.real R).1, (eulerAngles CMath.real R).2.1,
          (eulerAngles CMath.real R).2.2]).rotation
        = AngleAxisd CMath.real (CMath.real.atan2 (-R 1 2) (R 2 2)) UnitX
          * AngleAxisd CMath.real (CMath.real.asin (R 0 2)) UnitY
          * AngleAxisd CMath.real (CMath.real.atan2 (-R 0 1) (R 0 0)) UnitZ) ∧
    (∀ (E : CubicSplineEval ℝ) (n : Nat) (s0 s1 s2 s3 s4 s5 : CubicSpline ℝ) (t : ℝ),
      E.evaluatePoint s3 t = CMath.real.atan2 (-R 1 2) (R 2 2) →
      E.evaluatePoint s4 t = CMath.real.asin (R 0 2) →
      E.evaluatePoint s5 t = CMath.real.atan2 (-R 0 1) (R 0 0) →
      ∃ p, CartesianTrajectory.get_pose CMath.real E
          { isValid := true, numPoses := n, spline := [s0, s1, s2, s3, s4, s5] } t = .ok p ∧
        p.rotation = R) ∧
    (∀ (E : CubicSplineEval ℝ) (n : Nat) (s0 s1 s2 s3 s4 s5 : CubicSpline ℝ)
      (pose : Isometry3d ℝ) (vel acc : Fin 6 → ℝ) (t : ℝ),
      (E.evaluatePoint3 s3 t).1 = CMath.real.atan2 (-R 1 2) (R 2 2) →
      (E.evaluatePoint3 s4 t).1 = CMath.real.asin (R 0 2) →
      (E.evaluatePoint3 s5 t).1 = CMath.real.atan2 (-R 0 1) (R 0 0) →
      ∃ p v a, CartesianTrajectory.get_state CMath.real E
          { isValid := true, numPoses := n, spline := [s0, s1, s2, s3, s4, s5] } pose vel acc t
          = .ok (true, p, v, a) ∧
        p.rotation = R) := by
  have hang : eulerAngles CMath.real R
      = (CMath.real.atan2 (-R 1 2) (R 2 2), CMath.real.asin (R 0 2),
         CMath.real.atan2 (-R 0 1) (R 0 0)) := by
    have : CMath.real.abs (R 0 2) ≠ 1 := hne
    simp [eulerAngles, this]
  refine ⟨hang, ?_, ?_, ?_⟩
  · intro pos
    rw [hang]
    exact ⟨recompose_regular R hR hne pos, rfl⟩
  · intro E n s0 s1 s2 s3 s4 s5 t h3 h4 h5
    rw [get_pose_six]
    refine ⟨_, rfl, ?_⟩
    show (recompose CMath.real _
      ![E.evaluatePoint s3 t, E.evaluatePoint s4 t, E.evaluatePoint s5 t]).rotation = R
    rw [h3, h4, h5]
    exact recompose_regular R hR hne _
  · intro E n s0 s1 s2 s3 s4 s5 pose vel acc t h3 h4 h5
    rw [get_state_six]
    refine ⟨_, _, _, rfl, ?_⟩
    rw [h3, h4, h5]
    exact recompose_regular R hR hne _

/-- A yaw of 90 degrees: the recomposition of its regular-branch angles has rotation
`rotYaw90`, at any translation. -/
theorem recompose_inverts_regular_witness :
    (recompose CMath.real ![1, 2, 3]
      ![(eulerAngles CMath.real rotYaw90).1, (eulerAngles CMath.real rotYaw90).2.1,
        (eulerAngles CMath.real rotYaw90).2.2]).rotation = rotYaw90 :=
  ((recompose_inverts_regular rotYaw90 isProperOrthogonal_rotYaw90
    (by simp [rotYaw90])).2.1 ![1, 2, 3]).1

/-- C9: for a rotation matrix `R` with `R(0,2) = -1` the constructor takes the gimbal-lock
branch, and its angles roll = atan2(-R(1,0), R(1,1)), pitch = -pi/2, yaw = 0 are recomposed by
`get_pose` and `get_state` (translation, then RotX(roll) * RotY(pitch) * RotZ(yaw)) to
rotation `R`: as the expression itself, as the pose `get_pose` returns and as the pose
`get_state` writes whenever the three orientation interpolants evaluate to these angles. -/
theorem recompose_inverts_singular_neg (R : Matrix (Fin 3) (Fin 3) ℝ)
    (hR : IsProperOrthogonal R) (h02 : R 0 2 = -1) :
    eulerAngles CMath.real R
      = (CMath.real.atan2 (-R 1 0) (R 1 1), -CMath.real.M_PI / 2, 0) ∧
    (∀ pos : Fin 3 → ℝ,
      (recompose CMath.real pos
        ![(eulerAngles CMath.real R).1, (eulerAngles CMath.real R).2.1,
          (eulerAngles CMath.real R).2.2]).rotation = R ∧
      (recompose CMath.real pos
        ![(eulerAngles CMath.real R).1, (eulerAngles CMath.real R).2.1,
          (eulerAngles CMath.real R).2.2]).rotation
        = AngleAxisd CMath.real (CMath.real.atan2 (-R 1 0) (R 1 1)) UnitX
          * AngleAxisd CMath.real (-CMath.real.M_PI / 2) UnitY
          * AngleAxisd CMath.real 0 UnitZ) ∧
    (∀ (E : CubicSplineEval ℝ) (n : Nat) (s0 s1 s2 s3 s4 s5 : CubicSpline ℝ) (t : ℝ),
      E.evaluatePoint s3 t = CMath.real.atan2 (-R 1 0) (R 1 1) →
      E.evaluatePoint s4 t = -CMath.real.M_PI / 2 →
      E.evaluatePoint s5 t = 0 →
      ∃ p, CartesianTrajectory.get_pose CMath.real E
          { isValid := true, numPoses := n, spline := [s0, s1, s2, s3, s4, s5] } t = .ok p ∧
        p.rotation = R) ∧
    (∀ (E : CubicSplineEval ℝ) (n : Nat) (s0 s1 s2 s3 s4 s5 : CubicSpline ℝ)
      (pose : Isometry3d ℝ) (vel acc : Fin 6 → ℝ) (t : ℝ),
      (E.evaluatePoint3 s3 t).1 = CMath.real.atan2 (-R 1 0) (R 1 1) →
      (E.evaluatePoint3 s4 t).1 = -CMath.real.M_PI / 2 →
      (E.evaluatePoint3 s5 t).1 = 0 →
      ∃ p v a, CartesianTrajectory.get_state CMath.real E
          { isValid := true, numPoses := n, spline := [s0, s1, s2, s3, s4, s5] } pose vel acc t
          = .ok (true, p, v, a) ∧
        p.rotation = R) := by
  have hang : eulerAngles CMath.real R
      = (CMath.real.atan2 (-R 1 0) (R 1 1), -CMath.real.M_PI / 2, 0) := by
    have : CMath.real.abs (R 0 2) = 1 := by
      show |R 0 2| = 1
      rw [h02, abs_neg, abs_one]
    simp [eulerAngles, this]
  refine ⟨hang, ?_, ?_, ?_⟩
  · intro pos
    rw [hang]
    exact ⟨recompose_singular_neg R hR h02 pos, rfl⟩
  · intro E n s0 s1 s2 s3 s4 s5 t h3 h4 h5
    rw [get_pose_six]
    refine ⟨_, rfl, ?_⟩
    show (recompose CMath.real _
      ![E.evaluatePoint s3 t, E.evaluatePoint s4 t, E.evaluatePoint s5 t]).rotation = R
    rw [h3, h4, h5]
    exact recompose_singular_neg R hR h02 _
  · intro E n s0 s1 s2 s3 s4 s5 pose vel acc t h3 h4 h5
    rw [get_state_six]
    refine ⟨_, _, _, rfl, ?_⟩
    rw [h3, h4, h5]
    exact recompose_singular_neg R hR h02 _

/-- A pitch of -90 degrees: the recomposition of its gimbal-lock angles has rotation
`rotPitchNeg90`, at any translation. -/
theorem recompose_inverts_singular_neg_witness :
    (recompose CMath.real ![1, 2, 3]
      ![(eulerAngles CMath.real rotPitchNeg90).1, (eulerAngles CMath.real rotPitchNeg90).2.1,
        (eulerAngles CMath.real rotPitchNeg90).2.2]).rotation = rotPitchNeg90 :=
  ((recompose_inverts_singular_neg rotPitchNeg90 isProperOrthogonal_rotPitchNeg90
    (by simp [rotPitchNeg90])).2.1 ![1, 2, 3]).1

/-- C5, evaluated on the code: at a waypoint whose rotation has `R(0,2) = 1` the constructor
takes the gimbal-lock branch with pitch = -pi/2, and `get_pose` at that waypoint's time, with
interpolants exact at their control times, returns a rotation whose entry (0,2) is -1, which
is not the waypoint's rotation. -/
theorem gimbal_lock_pos_not_reproduced (E : CubicSplineEval ℝ) (poses : List (Isometry3d ℝ))
    (times : List ℝ) (traj : CartesianTrajectory ℝ) (i : Nat) (hi : i < poses.length)
    (hit : i < times.length)
    (h : CartesianTrajectory.construct CMath.real poses times = .ok traj)
    (hE : ∀ s ∈ traj.spline, ExactAtControlTimes E s)
    (h02 : poses[i].rotation 0 2 = 1) :
    eulerAngles CMath.real poses[i].rotation
      = (CMath.real.atan2 (-poses[i].rotation 1 0) (poses[i].rotation 1 1),
         -CMath.real.M_PI / 2, 0) ∧
    ∃ p, traj.get_pose CMath.real E times[i] = .ok p ∧ p.rotation 0 2 = -1 ∧
      p.rotation ≠ poses[i].rotation := by
  obtain ⟨hang, hrot⟩ := recompose_singular_pos poses[i].rotation h02
    ![poses[i].translation 0, poses[i].translation 1, poses[i].translation 2]
  refine ⟨hang, _, get_pose_at_waypoint CMath.real E poses times traj h hE i hi hit, ?_, ?_⟩
  · rw [hang]
    exact hrot
  · rw [hang]
    intro heq
    have h1 := congrFun (congrFun heq 0) 2
    rw [h02] at h1
    change (recompose CMath.real _ ![_, _, _]).rotation 0 2 = 1 at h1
    rw [hrot] at h1
    norm_num at h1

/-- Waypoint 1 cycles the axes (entry (0,2) is 1): `get_pose(1)` returns another rotation. -/
theorem gimbal_lock_pos_not_reproduced_witness :
    IsProperOrthogonal poseCycle.rotation ∧
    ∃ traj p, CartesianTrajectory.construct CMath.real [poseA, poseCycle] [0, 1] = .ok traj ∧
      traj.get_pose CMath.real tableSpline 1 = .ok p ∧
      p.rotation 0 2 = -1 ∧ p.rotation ≠ poseCycle.rotation := by
  have hc := construct_eq CMath.real [poseA, poseCycle] [0, 1] rfl (le_refl 2)
  obtain ⟨-, p, hp, h1, h2⟩ :=
    gimbal_lock_pos_not_reproduced tableSpline [poseA, poseCycle] [0, 1] _ 1 (by decide)
      (by decide) hc (tableSpline_exact_fitted CMath.real poseA poseCycle 0 1 one_ne_zero)
      (by simp [poseCycle])
  exact ⟨isProperOrthogonal_poseCycle, _, p, hc, hp, h1, h2⟩

/-- C4, evaluated on the code: for the waypoints (a 90 degree pitch at time 0, the identity at
time 1), both rotations proper-orthogonal, the construction completes, the interpolants are
exact at the control times, and `get_pose` at time 0 returns the translation of waypoint 0
but a rotation whose entry (0,2) is -1 where the waypoint's is 1. -/
theorem round_trip_fails_at_pitch90 :
    IsProperOrthogonal posePitch90.rotation ∧ IsProperOrthogonal poseA.rotation ∧
    ∃ traj, CartesianTrajectory.construct CMath.real [posePitch90, poseA] [0, 1] = .ok traj ∧
      (∀ s ∈ traj.spline, ExactAtControlTimes tableSpline s) ∧
      ∃ p, traj.get_pose CMath.real tableSpline 0 = .ok p ∧
        p.translation = posePitch90.translation ∧
        p.rotation 0 2 = -1 ∧ posePitch90.rotation 0 2 = 1 := by
  have hc := construct_eq CMath.real [posePitch90, poseA] [0, 1] rfl (le_refl 2)
  have hE := tableSpline_exact_fitted CMath.real posePitch90 poseA 0 1 one_ne_zero
  have h02 : posePitch90.rotation 0 2 = 1 := by simp [posePitch90]
  obtain ⟨hang, hrot⟩ := recompose_singular_pos posePitch90.rotation h02
    ![posePitch90.translation 0, posePitch90.translation 1, posePitch90.translation 2]
  have hg := get_pose_at_waypoint CMath.real tableSpline [posePitch90, poseA] [0, 1] _ hc hE 0
    (by decide) (by decide)
  refine ⟨isProperOrthogonal_posePitch90, isProperOrthogonal_one, _, hc, hE, _, hg, ?_, ?_, h02⟩
  · funext k
    fin_cases k <;> rfl
  · show (recompose CMath.real _ ![_, _, _]).rotation 0 2 = -1
    simp only [List.getElem_cons_zero]
    rw [hang]
    exact hrot

end Claims

